import Mathlib

/-!
# pap2t-unlock: the DHCP lease engine, the DORA handler and the DNS responder

A shallow embedding of `dhcp.go` and `dns.go`.

* Byte slices (`net.IP`, `net.IPMask`) are lists of naturals; the Go `nil`
  slice is the empty list (the program never builds an empty non-nil slice).
* The `byte`-typed pool cursor `nextIP` is a natural number and its increment
  is taken modulo `2^8`.
* The Go map `leases` is an association list with at most one entry per key.
* `allocateIP` runs wholly under the handler's mutex, so a concurrent execution
  is a sequence of atomic calls; the model is that sequence.
* The packages `net`, `dhcpv4` and `dns` are not part of the repository; the
  few functions of them that the handlers call are transcribed alongside.
  DHCP options keep their values as given, before wire encoding.
* `dhcpv4.New` draws a transaction id from the system random source and
  returns an error when the draw fails; the outcome of the draw is an input
  `xid` of the handlers, `none` for a failed draw.
* `Handle` returns what it passes to `conn.WriteTo`, if it calls it; logging
  is left out.
-/

namespace Pap2t

/-! ## Package `net` -/

/-- A Go `net.IP`: a byte slice; `[]` stands for `nil`. -/
abbrev IP := List Nat

/-- A Go `net.IPMask`. -/
abbrev IPMask := List Nat

/-- A Go `net.HardwareAddr`: a slice of bytes. -/
abbrev HardwareAddr := List (Fin 256)

/-- A Go `net.IPNet`. -/
structure IPNet where
  IP : IP
  Mask : IPMask
deriving DecidableEq, Repr

/-- A Go `net.UDPAddr`. -/
structure UDPAddr where
  IP : IP
  Port : Nat
deriving DecidableEq, Repr

/-- The Go constant `net.IPv4bcast`. -/
def IPv4bcast : IP := [255, 255, 255, 255]

/-- The table `hexDigit = "0123456789abcdef"` of package `net`, indexed. -/
def hexDigit (n : Nat) : Char :=
  ['0', '1', '2', '3', '4', '5', '6', '7', '8', '9', 'a', 'b', 'c', 'd', 'e', 'f'].getD n '?'

/-- The loop of `HardwareAddr.String`: a colon before every byte but the
first, then the two hex digits of the byte. -/
def hwChars : Nat → HardwareAddr → List Char
  | _, [] => []
  | i, b :: rest =>
    (if i > 0 then [':'] else []) ++ [hexDigit (b.val >>> 4), hexDigit (b.val &&& 0xF)]
      ++ hwChars (i + 1) rest

/-- The Go method `HardwareAddr.String`. -/
def HardwareAddr.String (a : HardwareAddr) : String :=
  if a.length = 0 then "" else String.mk (hwChars 0 a)

/-- The prefix of an IPv4 address stored in 16 bytes. -/
def v4InV6Prefix : List Nat := [0, 0, 0, 0, 0, 0, 0, 0, 0, 0, 0xff, 0xff]

/-- The Go method `IP.To4`. -/
def IP.To4 (ip : IP) : IP :=
  if ip.length = 4 then ip
  else if ip.length = 16 ∧ ip.take 12 = v4InV6Prefix then ip.drop 12
  else []

/-- The Go method `IP.Mask`. -/
def IP.Mask (ip : IP) (mask : IPMask) : IP :=
  let mask := if mask.length = 16 ∧ ip.length = 4 ∧ mask.take 12 = List.replicate 12 0xff
    then mask.drop 12 else mask
  let ip := if mask.length = 4 ∧ ip.length = 16 ∧ ip.take 12 = v4InV6Prefix
    then ip.drop 12 else ip
  if ip.length ≠ mask.length then []
  else List.zipWith (fun a m => a &&& m) ip mask

/-- The Go builtin `copy(dst, src)`: the first `min (len dst) (len src)`
elements of `dst` are overwritten. -/
def copy (dst src : List Nat) : List Nat :=
  src.take dst.length ++ dst.drop src.length

/-! ## The lease table (`map[string]net.IP`) -/

/-- The Go map type of `leases`. -/
abbrev LeaseMap := List (String × IP)

/-- A map read `m[k]` with the comma-ok form. -/
def mapGet : LeaseMap → String → Option IP
  | [], _ => none
  | (k', v) :: rest, k => if k' = k then some v else mapGet rest k

/-- A map write `m[k] = v`. -/
def mapSet (m : LeaseMap) (k : String) (v : IP) : LeaseMap :=
  (k, v) :: m.filter (fun p => decide (p.1 ≠ k))

/-! ## `dhcp.go`: the allocation engine -/

def poolStart : Nat := 100
def poolEnd : Nat := 200
/-- The constant `time.Hour`, in nanoseconds as `time.Duration` counts. -/
def Hour : Nat := 60 * (60 * (1000 * (1000 * 1000)))
def leaseTime : Nat := 1 * Hour

/-- The struct `DHCPHandler` without its mutex. -/
structure DHCPHandler where
  serverIP : IP
  subnet : IPNet
  nextIP : Nat
  leases : LeaseMap
deriving DecidableEq, Repr

def NewDHCPHandler (serverIP : IP) (subnet : IPNet) : DHCPHandler :=
  { serverIP := serverIP, subnet := subnet, nextIP := poolStart, leases := [] }

/-- The method `allocateIP`: the returned address (`[]` for `nil`) and the
handler after the call. -/
def allocateIP (h : DHCPHandler) (mac : HardwareAddr) : IP × DHCPHandler :=
  let macStr := mac.String
  match mapGet h.leases macStr with
  | some ip => (ip, h)
  | none =>
    if h.nextIP > poolEnd then ([], h)
    else
      let ip := copy (List.replicate 4 0) ((h.subnet.IP.To4).Mask h.subnet.Mask)
      let ip := ip.set 3 h.nextIP
      (ip, { h with nextIP := (h.nextIP + 1) % 256, leases := mapSet h.leases macStr ip })

/-- The handler after a sequence of `allocateIP` calls. -/
def allocAll (h : DHCPHandler) (macs : List HardwareAddr) : DHCPHandler :=
  macs.foldl (fun h mac => (allocateIP h mac).2) h

/-! ## Package `dhcpv4`: packets and the modifiers the handler uses -/

def OpcodeBootRequest : Nat := 1
def OpcodeBootReply : Nat := 2

def MessageTypeNone : Nat := 0
def MessageTypeDiscover : Nat := 1
def MessageTypeOffer : Nat := 2
def MessageTypeRequest : Nat := 3
def MessageTypeDecline : Nat := 4
def MessageTypeAck : Nat := 5
def MessageTypeNak : Nat := 6
def MessageTypeRelease : Nat := 7
def MessageTypeInform : Nat := 8

def OptionSubnetMask : Nat := 1
def OptionRouter : Nat := 3
def OptionDomainNameServer : Nat := 6
def OptionIPAddressLeaseTime : Nat := 51
def OptionDHCPMessageType : Nat := 53
def OptionServerIdentifier : Nat := 54
def OptionRelayAgentInformation : Nat := 82

/-- The value of a DHCP option, before wire encoding. -/
inductive OptionValue where
  | messageType (t : Nat)
  | mask (m : IPMask)
  | ips (l : List IP)
  | ip (a : IP)
  | duration (d : Nat)
  | raw (bytes : List Nat)
deriving DecidableEq, Repr

/-- The type `dhcpv4.Options`, a map from option code to value. -/
abbrev Options := List (Nat × OptionValue)

/-- The method `Options.Get`. -/
def Options.Get : Options → Nat → Option OptionValue
  | [], _ => none
  | (c, v) :: rest, code => if c = code then some v else Options.Get rest code

/-- The method `Options.Update`. -/
def Options.Update (o : Options) (code : Nat) (v : OptionValue) : Options :=
  (code, v) :: o.filter (fun p => decide (p.1 ≠ code))

/-- The struct `dhcpv4.DHCPv4`. -/
structure DHCPv4 where
  OpCode : Nat
  HWType : Nat
  ClientHWAddr : HardwareAddr
  TransactionID : Nat
  Flags : Nat
  ClientIPAddr : IP
  YourIPAddr : IP
  ServerIPAddr : IP
  GatewayIPAddr : IP
  Options : Options
deriving DecidableEq, Repr

/-- The method `DHCPv4.MessageType`: option 53, or `MessageTypeNone`. -/
def DHCPv4.MessageType (d : DHCPv4) : Nat :=
  match d.Options.Get OptionDHCPMessageType with
  | some (.messageType t) => t
  | _ => MessageTypeNone

/-- A `dhcpv4.Modifier`. -/
abbrev Modifier := DHCPv4 → DHCPv4

def WithOption (code : Nat) (v : OptionValue) : Modifier :=
  fun d => { d with Options := d.Options.Update code v }

def WithMessageType (m : Nat) : Modifier :=
  WithOption OptionDHCPMessageType (.messageType m)

def WithServerIP (ip : IP) : Modifier := fun d => { d with ServerIPAddr := ip }

def WithYourIP (ip : IP) : Modifier := fun d => { d with YourIPAddr := ip }

def WithGatewayIP (ip : IP) : Modifier := fun d => { d with GatewayIPAddr := ip }

def WithReply (request : DHCPv4) : Modifier :=
  fun d =>
    { d with
      OpCode := if request.OpCode = OpcodeBootRequest then OpcodeBootReply else OpcodeBootRequest
      HWType := request.HWType
      ClientHWAddr := request.ClientHWAddr
      TransactionID := request.TransactionID
      Flags := request.Flags
      GatewayIPAddr := request.GatewayIPAddr }

def WithOptionCopied (request : DHCPv4) (code : Nat) : Modifier :=
  fun d =>
    match request.Options.Get code with
    | some v => { d with Options := d.Options.Update code v }
    | none => d

def OptSubnetMask (m : IPMask) : Nat × OptionValue := (OptionSubnetMask, .mask m)
def OptRouter (ip : IP) : Nat × OptionValue := (OptionRouter, .ips [ip])
def OptDNS (ip : IP) : Nat × OptionValue := (OptionDomainNameServer, .ips [ip])
def OptIPAddressLeaseTime (d : Nat) : Nat × OptionValue := (OptionIPAddressLeaseTime, .duration d)
def OptServerIdentifier (ip : IP) : Nat × OptionValue := (OptionServerIdentifier, .ip ip)

/-- The function `dhcpv4.New`. It first draws a transaction id from the system
random source; `xid` is the outcome of that draw, `none` when the draw fails,
in which case `New` returns the error. -/
def New (xid : Option Nat) (modifiers : List Modifier) : Except String DHCPv4 :=
  match xid with
  | none => .error "could not get random number"
  | some x =>
    let d : DHCPv4 :=
      { OpCode := OpcodeBootRequest, HWType := 1, ClientHWAddr := List.replicate 6 0,
        TransactionID := x, Flags := 0, ClientIPAddr := [0, 0, 0, 0], YourIPAddr := [0, 0, 0, 0],
        ServerIPAddr := [0, 0, 0, 0], GatewayIPAddr := [0, 0, 0, 0], Options := [] }
    .ok (modifiers.foldl (fun d mod => mod d) d)

/-- The function `dhcpv4.NewReplyFromRequest`. -/
def NewReplyFromRequest (xid : Option Nat) (request : DHCPv4) (modifiers : List Modifier) :
    Except String DHCPv4 :=
  New xid ([WithReply request, WithGatewayIP request.GatewayIPAddr,
    WithOptionCopied request OptionRelayAgentInformation] ++ modifiers)

/-! ## `dhcp.go`: the DORA handler -/

/-- The method `handleDiscover`. -/
def handleDiscover (h : DHCPHandler) (xid : Option Nat) (req : DHCPv4) :
    Except String DHCPv4 × DHCPHandler :=
  let (offerIP, h) := allocateIP h req.ClientHWAddr
  if offerIP = [] then (.error "no IPs available in pool", h)
  else
    (NewReplyFromRequest xid req
      [WithMessageType MessageTypeOffer,
       WithServerIP h.serverIP,
       WithYourIP offerIP,
       WithOption (OptSubnetMask h.subnet.Mask).1 (OptSubnetMask h.subnet.Mask).2,
       WithOption (OptRouter h.serverIP).1 (OptRouter h.serverIP).2,
       WithOption (OptDNS h.serverIP).1 (OptDNS h.serverIP).2,
       WithOption (OptIPAddressLeaseTime leaseTime).1 (OptIPAddressLeaseTime leaseTime).2,
       WithOption (OptServerIdentifier h.serverIP).1 (OptServerIdentifier h.serverIP).2], h)

/-- The method `handleRequest`. -/
def handleRequest (h : DHCPHandler) (xid : Option Nat) (req : DHCPv4) :
    Except String DHCPv4 × DHCPHandler :=
  let (offerIP, h) := allocateIP h req.ClientHWAddr
  if offerIP = [] then (.error "no IPs available in pool", h)
  else
    (NewReplyFromRequest xid req
      [WithMessageType MessageTypeAck,
       WithServerIP h.serverIP,
       WithYourIP offerIP,
       WithOption (OptSubnetMask h.subnet.Mask).1 (OptSubnetMask h.subnet.Mask).2,
       WithOption (OptRouter h.serverIP).1 (OptRouter h.serverIP).2,
       WithOption (OptDNS h.serverIP).1 (OptDNS h.serverIP).2,
       WithOption (OptIPAddressLeaseTime leaseTime).1 (OptIPAddressLeaseTime leaseTime).2,
       WithOption (OptServerIdentifier h.serverIP).1 (OptServerIdentifier h.serverIP).2], h)

/-- The tail of `Handle` after the switch: an error or a missing response ends
the call, otherwise the response is written to the broadcast address. The
result is the argument pair of `conn.WriteTo`, if it is called. -/
def sendResponse (r : Except String DHCPv4 × DHCPHandler) :
    Option (UDPAddr × DHCPv4) × DHCPHandler :=
  match r with
  | (.error _, h) => (none, h)
  | (.ok resp, h) =>
    let peer : UDPAddr := { IP := IPv4bcast, Port := 68 }
    (some (peer, resp), h)

/-- The method `Handle`: what is written to the connection, and the handler
after the call. -/
def Handle (h : DHCPHandler) (xid : Option Nat) (_peer : UDPAddr) (req : DHCPv4) :
    Option (UDPAddr × DHCPv4) × DHCPHandler :=
  if req.OpCode ≠ OpcodeBootRequest then (none, h)
  else
    let msgType := req.MessageType
    if msgType = MessageTypeDiscover then sendResponse (handleDiscover h xid req)
    else if msgType = MessageTypeRequest then sendResponse (handleRequest h xid req)
    else (none, h)

/-- One inbound datagram as `Handle` sees it, with the outcome of the random
draw made while it is handled. -/
structure Event where
  xid : Option Nat
  peer : UDPAddr
  req : DHCPv4

/-- The handler after a sequence of `Handle` calls. -/
def handleAll (h : DHCPHandler) (evs : List Event) : DHCPHandler :=
  evs.foldl (fun h e => (Handle h e.xid e.peer e.req).2) h

/-! ## `dns.go` -/

def TypeA : Nat := 1
def TypeAAAA : Nat := 28
def ClassINET : Nat := 1
def OpcodeQuery : Nat := 0
def RcodeSuccess : Nat := 0

/-- The struct `dns.Question`. -/
structure Question where
  Name : String
  Qtype : Nat
  Qclass : Nat
deriving DecidableEq, Repr

/-- The struct `dns.RR_Header`. -/
structure RR_Header where
  Name : String
  Rrtype : Nat
  Class : Nat
  Ttl : Nat
  Rdlength : Nat := 0
deriving DecidableEq, Repr

/-- A resource record: `dns.A`, or a record of another kind. -/
inductive RR where
  | A (Hdr : RR_Header) (A : IP)
  | other (Hdr : RR_Header) (rdata : List Nat)
deriving DecidableEq, Repr

/-- The struct `dns.Msg`. -/
structure Msg where
  Id : Nat := 0
  Response : Bool := false
  Opcode : Nat := 0
  Authoritative : Bool := false
  RecursionDesired : Bool := false
  CheckingDisabled : Bool := false
  Rcode : Nat := 0
  Question : List Question := []
  Answer : List RR := []
deriving DecidableEq, Repr

/-- The method `Msg.SetReply`. -/
def Msg.SetReply (dns request : Msg) : Msg :=
  let dns := { dns with Id := request.Id, Response := true, Opcode := request.Opcode }
  let dns := if dns.Opcode = OpcodeQuery
    then { dns with RecursionDesired := request.RecursionDesired,
                    CheckingDisabled := request.CheckingDisabled }
    else dns
  let dns := { dns with Rcode := RcodeSuccess }
  if request.Question.length > 0 then { dns with Question := request.Question.take 1 } else dns

/-- The handler returned by `newDNSHandler serverIP`, applied to the query
`r`: the message handed to `w.WriteMsg`. -/
def newDNSHandler (serverIP : IP) (r : Msg) : Msg :=
  let msg : Msg := {}
  let msg := msg.SetReply r
  let msg := { msg with Authoritative := true }
  r.Question.foldl
    (fun msg q =>
      let rr := RR.A { Name := q.Name, Rrtype := TypeA, Class := ClassINET, Ttl := 60 } serverIP
      { msg with Answer := msg.Answer ++ [rr] })
    msg

/-! ## Vocabulary of the properties -/

/-- The number of distinct elements of a list. -/
def countDistinct : List HardwareAddr → Nat
  | [] => 0
  | a :: l => if a ∈ l then countDistinct l else countDistinct l + 1

/-- The calls of a sequence that come before the first call for `mac`. -/
def callsBefore (mac : HardwareAddr) : List HardwareAddr → List HardwareAddr
  | [] => []
  | a :: l => if a = mac then [] else a :: callsBefore mac l

/-- The rank of `mac` among the distinct clients of `macs`, in order of first
appearance, counted from 1. -/
def clientRank (macs : List HardwareAddr) (mac : HardwareAddr) : Nat :=
  countDistinct (callsBefore mac macs) + 1

/-- The network address of a subnet, four bytes: the subnet address masked. -/
def networkAddr (n : IPNet) : IP :=
  copy (List.replicate 4 0) ((n.IP.To4).Mask n.Mask)

/-- The address the pool forms for the host number `o`: the network address
with its last byte replaced by `o`. -/
def poolAddr (n : IPNet) (o : Nat) : IP := (networkAddr n).set 3 o

/-- A four-byte address as a 32-bit number, big endian. -/
def ipToNat : IP → Nat
  | [a, b, c, d] => ((a * 256 + b) * 256 + c) * 256 + d
  | _ => 0

/-- The function `networkNumberAndMask` of package `net`; `([], [])` for
`(nil, nil)`. -/
def networkNumberAndMask (n : IPNet) : IP × IPMask :=
  if n.IP.To4 = [] ∧ n.IP.length ≠ 16 then ([], [])
  else
    let ip := if n.IP.To4 = [] then n.IP else n.IP.To4
    if n.Mask.length = 4 then
      if ip.length ≠ 4 then ([], []) else (ip, n.Mask)
    else if n.Mask.length = 16 then
      if ip.length = 4 then (ip, n.Mask.drop 12) else (ip, n.Mask)
    else ([], [])

/-- The method `IPNet.Contains`. -/
def IPNet.Contains (n : IPNet) (ip : Pap2t.IP) : Bool :=
  let nn := (networkNumberAndMask n).1
  let m := (networkNumberAndMask n).2
  let ip := if ip.To4 ≠ [] then ip.To4 else ip
  if ip.length ≠ nn.length then false
  else decide (List.zipWith (fun a b => a &&& b) nn m = List.zipWith (fun a b => a &&& b) ip m)

/-- The lease table grants no address to two clients. -/
def LeasesInjective (m : LeaseMap) : Prop :=
  ∀ k1 k2 a1 a2, mapGet m k1 = some a1 → mapGet m k2 = some a2 → k1 ≠ k2 → a1 ≠ a2

/-- What holds of the handler reached from a fresh one by the calls `pre`. -/
structure Inv (s : IP) (n : IPNet) (pre : List HardwareAddr) (h : DHCPHandler) : Prop where
  server : h.serverIP = s
  subnet : h.subnet = n
  cursor : h.nextIP = poolStart + min (countDistinct pre) 101
  keys_nodup : (h.leases.map Prod.fst).Nodup
  values : h.leases.map Prod.snd =
    ((List.range (h.nextIP - poolStart)).map (fun i => poolAddr n (poolStart + i))).reverse
  keys_sub : ∀ p ∈ h.leases, ∃ m ∈ pre, m.String = p.1
  keys_sup : h.nextIP ≤ poolEnd → ∀ m ∈ pre, mapGet h.leases m.String ≠ none

/-! ## Inputs of the worked examples -/

def exampleServer : IP := [192, 168, 1, 1]
def exampleNet24 : IPNet := { IP := [192, 168, 1, 0], Mask := [255, 255, 255, 0] }
def exampleNet25 : IPNet := { IP := [192, 168, 1, 128], Mask := [255, 255, 255, 128] }
def macA : HardwareAddr := [0xaa, 0xbb, 0xcc, 0xdd, 0xee, 0xff]
def macB : HardwareAddr := [0x11, 0x22, 0x33, 0x44, 0x55, 0x66]
def macC : HardwareAddr := [0x02, 0x00, 0x00, 0x00, 0x00, 0x01]

/-- A request packet of the given type from the given client, as the tests
build it with `dhcpv4.New`. -/
def exampleRequest (t : Nat) (mac : HardwareAddr) : DHCPv4 :=
  { OpCode := OpcodeBootRequest, HWType := 1, ClientHWAddr := mac, TransactionID := 7,
    Flags := 0, ClientIPAddr := [0, 0, 0, 0], YourIPAddr := [0, 0, 0, 0],
    ServerIPAddr := [0, 0, 0, 0], GatewayIPAddr := [0, 0, 0, 0],
    Options := [(OptionDHCPMessageType, .messageType t)] }

def examplePeer : UDPAddr := { IP := [192, 168, 1, 50], Port := 68 }

/-- One client per byte value `0 .. k-1`. -/
def manyClients (k : Nat) : List HardwareAddr :=
  (List.range k).map (fun i => [Fin.ofNat i])

/-! ## Lemmas on the lease table -/

theorem mapGet_eq_none_iff (m : LeaseMap) (k : String) :
    mapGet m k = none ↔ ∀ p ∈ m, p.1 ≠ k := by
  induction m with
  | nil => simp [mapGet]
  | cons p rest ih =>
    obtain ⟨k', v⟩ := p
    by_cases hk : k' = k
    · simp [mapGet, hk]
    · simp [mapGet, hk, ih]

theorem mapGet_mem (m : LeaseMap) (k : String) (a : IP) (hg : mapGet m k = some a) :
    (k, a) ∈ m := by
  induction m with
  | nil => simp [mapGet] at hg
  | cons p rest ih =>
    obtain ⟨k', v⟩ := p
    by_cases hk : k' = k
    · simp [mapGet, hk] at hg
      simp [hk, hg]
    · simp [mapGet, hk] at hg
      exact List.mem_cons_of_mem _ (ih hg)

theorem mapGet_of_mem_nodup (m : LeaseMap) (k : String) (a : IP)
    (hnd : (m.map Prod.fst).Nodup) (hm : (k, a) ∈ m) : mapGet m k = some a := by
  induction m with
  | nil => simp at hm
  | cons p rest ih =>
    obtain ⟨k', v⟩ := p
    simp only [List.map_cons, List.nodup_cons] at hnd
    rcases List.mem_cons.mp hm with heq | hin
    · cases heq
      simp [mapGet]
    · have hne : k' ≠ k := by
        intro h
        apply hnd.1
        rw [h]
        exact List.mem_map_of_mem Prod.fst hin
      simp [mapGet, hne, ih hnd.2 hin]

theorem filter_of_none (m : LeaseMap) (k : String) (hg : mapGet m k = none) :
    m.filter (fun p => decide (p.1 ≠ k)) = m := by
  rw [List.filter_eq_self]
  intro p hp
  simpa using (mapGet_eq_none_iff m k).mp hg p hp

theorem mapSet_of_none (m : LeaseMap) (k : String) (v : IP) (hg : mapGet m k = none) :
    mapSet m k v = (k, v) :: m := by
  unfold mapSet
  rw [filter_of_none m k hg]

/-! ## `HardwareAddr.String` is injective -/

theorem hexDigit_inj : ∀ a b : Fin 16, hexDigit a.val = hexDigit b.val → a = b := by
  decide

theorem byte_hi_lo (b : Fin 256) :
    b.val >>> 4 = b.val / 16 ∧ b.val &&& 0xF = b.val % 16 := by
  constructor
  · rw [Nat.shiftRight_eq_div_pow]
  · exact Nat.and_pow_two_sub_one_eq_mod b.val 4

theorem hexPair_inj (a b : Fin 256) (hhi : hexDigit (a.val >>> 4) = hexDigit (b.val >>> 4))
    (hlo : hexDigit (a.val &&& 0xF) = hexDigit (b.val &&& 0xF)) : a = b := by
  rw [(byte_hi_lo a).1, (byte_hi_lo b).1] at hhi
  rw [(byte_hi_lo a).2, (byte_hi_lo b).2] at hlo
  have ha := a.isLt
  have hb := b.isLt
  have h1 := hexDigit_inj ⟨a.val / 16, by omega⟩ ⟨b.val / 16, by omega⟩ hhi
  have h2 := hexDigit_inj ⟨a.val % 16, by omega⟩ ⟨b.val % 16, by omega⟩ hlo
  simp only [Fin.mk.injEq] at h1 h2
  apply Fin.ext
  omega

theorem hwChars_inj (a : HardwareAddr) :
    ∀ (i : Nat) (b : HardwareAddr), hwChars i a = hwChars i b → a = b := by
  induction a with
  | nil =>
    intro i b h
    cases b with
    | nil => rfl
    | cons y ys =>
      exfalso
      by_cases hi : i > 0 <;> simp [hwChars, hi] at h
  | cons x xs ih =>
    intro i b h
    cases b with
    | nil =>
      exfalso
      by_cases hi : i > 0 <;> simp [hwChars, hi] at h
    | cons y ys =>
      by_cases hi : i > 0
      · simp [hwChars, hi] at h
        obtain ⟨h1, h2, h3⟩ := h
        rw [hexPair_inj x y h1 h2, ih (i + 1) ys h3]
      · simp [hwChars, hi] at h
        obtain ⟨h1, h2, h3⟩ := h
        rw [hexPair_inj x y h1 h2, ih (i + 1) ys h3]

theorem hwChars_ne_nil (i : Nat) (x : Fin 256) (xs : HardwareAddr) :
    hwChars i (x :: xs) ≠ [] := by
  by_cases hi : i > 0 <;> simp [hwChars, hi]

theorem String_inj (a b : HardwareAddr) (h : a.String = b.String) : a = b := by
  cases a with
  | nil =>
    cases b with
    | nil => rfl
    | cons y ys =>
      exfalso
      simp only [HardwareAddr.String, List.length_nil, List.length_cons] at h
      simp only [↓reduceIte, Nat.add_one_ne_zero] at h
      have h2 := congrArg String.data h
      exact hwChars_ne_nil 0 y ys h2.symm
  | cons x xs =>
    cases b with
    | nil =>
      exfalso
      simp only [HardwareAddr.String, List.length_nil, List.length_cons] at h
      simp only [↓reduceIte, Nat.add_one_ne_zero] at h
      have h2 := congrArg String.data h
      exact hwChars_ne_nil 0 x xs h2
    | cons y ys =>
      simp only [HardwareAddr.String, List.length_cons, Nat.add_one_ne_zero, ↓reduceIte] at h
      exact hwChars_inj _ 0 _ (congrArg String.data h)

/-! ## One call of `allocateIP` -/

theorem networkAddr_length (n : IPNet) : (networkAddr n).length = 4 := by
  simp only [networkAddr, copy, List.length_append, List.length_take, List.length_drop,
    List.length_replicate]
  omega

theorem poolAddr_length (n : IPNet) (o : Nat) : (poolAddr n o).length = 4 := by
  simp [poolAddr, networkAddr_length]

theorem poolAddr_ne_nil (n : IPNet) (o : Nat) : poolAddr n o ≠ [] := by
  intro h
  have := poolAddr_length n o
  rw [h] at this
  simp at this

theorem poolAddr_last (n : IPNet) (o : Nat) : (poolAddr n o)[3]? = some o := by
  have h := networkAddr_length n
  simp [poolAddr, h]

theorem poolAddr_inj (n : IPNet) (o1 o2 : Nat) (h : poolAddr n o1 = poolAddr n o2) : o1 = o2 := by
  have h1 := poolAddr_last n o1
  rw [h, poolAddr_last] at h1
  exact (Option.some.inj h1).symm

theorem allocateIP_hit (h : DHCPHandler) (mac : HardwareAddr) (ip : IP)
    (hg : mapGet h.leases mac.String = some ip) : allocateIP h mac = (ip, h) := by
  simp [allocateIP, hg]

theorem allocateIP_full (h : DHCPHandler) (mac : HardwareAddr)
    (hg : mapGet h.leases mac.String = none) (hx : h.nextIP > poolEnd) :
    allocateIP h mac = ([], h) := by
  simp [allocateIP, hg, hx]

theorem allocateIP_new (h : DHCPHandler) (mac : HardwareAddr)
    (hg : mapGet h.leases mac.String = none) (hx : h.nextIP ≤ poolEnd) :
    allocateIP h mac = (poolAddr h.subnet h.nextIP,
      { h with nextIP := h.nextIP + 1,
               leases := (mac.String, poolAddr h.subnet h.nextIP) :: h.leases }) := by
  have hx2 : ¬ h.nextIP > poolEnd := by omega
  have hmod : (h.nextIP + 1) % 256 = h.nextIP + 1 := by
    unfold poolEnd at hx
    omega
  simp only [allocateIP, hg, hx2, ↓reduceIte, hmod, poolAddr, networkAddr]
  rw [mapSet_of_none _ _ _ hg]

theorem allocateIP_serverIP (h : DHCPHandler) (mac : HardwareAddr) :
    (allocateIP h mac).2.serverIP = h.serverIP := by
  cases hg : mapGet h.leases mac.String with
  | some ip => rw [allocateIP_hit h mac ip hg]
  | none =>
    by_cases hx : h.nextIP > poolEnd
    · rw [allocateIP_full h mac hg hx]
    · rw [allocateIP_new h mac hg (by omega)]

theorem allocateIP_subnet (h : DHCPHandler) (mac : HardwareAddr) :
    (allocateIP h mac).2.subnet = h.subnet := by
  cases hg : mapGet h.leases mac.String with
  | some ip => rw [allocateIP_hit h mac ip hg]
  | none =>
    by_cases hx : h.nextIP > poolEnd
    · rw [allocateIP_full h mac hg hx]
    · rw [allocateIP_new h mac hg (by omega)]

theorem allocateIP_frozen (h : DHCPHandler) (mac : HardwareAddr) (hx : h.nextIP > poolEnd) :
    (allocateIP h mac).2 = h := by
  cases hg : mapGet h.leases mac.String with
  | some ip => rw [allocateIP_hit h mac ip hg]
  | none => rw [allocateIP_full h mac hg hx]

theorem allocateIP_persist (h : DHCPHandler) (mac : HardwareAddr) (k : String) (a : IP)
    (hk : mapGet h.leases k = some a) : mapGet (allocateIP h mac).2.leases k = some a := by
  cases hg : mapGet h.leases mac.String with
  | some ip => rw [allocateIP_hit h mac ip hg]; exact hk
  | none =>
    by_cases hx : h.nextIP > poolEnd
    · rw [allocateIP_full h mac hg hx]; exact hk
    · rw [allocateIP_new h mac hg (by omega)]
      have hne : mac.String ≠ k := by
        intro he
        rw [he, hk] at hg
        cases hg
      simp [mapGet, hne, hk]

theorem allocateIP_stored (h : DHCPHandler) (mac : HardwareAddr)
    (hr : (allocateIP h mac).1 ≠ []) :
    mapGet (allocateIP h mac).2.leases mac.String = some (allocateIP h mac).1 := by
  cases hg : mapGet h.leases mac.String with
  | some ip => rw [allocateIP_hit h mac ip hg]; exact hg
  | none =>
    by_cases hx : h.nextIP > poolEnd
    · rw [allocateIP_full h mac hg hx] at hr
      exact absurd rfl hr
    · rw [allocateIP_new h mac hg (by omega)]
      simp [mapGet]

/-! ## Sequences of calls -/

theorem allocAll_snoc (h : DHCPHandler) (macs : List HardwareAddr) (mac : HardwareAddr) :
    allocAll h (macs ++ [mac]) = (allocateIP (allocAll h macs) mac).2 := by
  simp [allocAll, List.foldl_append]

theorem allocAll_cons (h : DHCPHandler) (macs : List HardwareAddr) (mac : HardwareAddr) :
    allocAll h (mac :: macs) = allocAll (allocateIP h mac).2 macs := rfl

theorem allocAll_append (h : DHCPHandler) (l1 l2 : List HardwareAddr) :
    allocAll h (l1 ++ l2) = allocAll (allocAll h l1) l2 := by
  simp [allocAll, List.foldl_append]

theorem allocAll_persist (macs : List HardwareAddr) :
    ∀ (h : DHCPHandler) (k : String) (a : IP),
      mapGet h.leases k = some a → mapGet (allocAll h macs).leases k = some a := by
  induction macs with
  | nil => intro h k a hk; exact hk
  | cons m rest ih =>
    intro h k a hk
    rw [allocAll_cons]
    exact ih _ k a (allocateIP_persist h m k a hk)

theorem allocAll_frozen (macs : List HardwareAddr) :
    ∀ (h : DHCPHandler), h.nextIP > poolEnd → allocAll h macs = h := by
  induction macs with
  | nil => intro h _; rfl
  | cons m rest ih =>
    intro h hx
    rw [allocAll_cons, allocateIP_frozen h m hx]
    exact ih h hx

theorem allocAll_serverIP (macs : List HardwareAddr) :
    ∀ (h : DHCPHandler), (allocAll h macs).serverIP = h.serverIP := by
  induction macs with
  | nil => intro h; rfl
  | cons m rest ih =>
    intro h
    rw [allocAll_cons, ih, allocateIP_serverIP]

theorem allocAll_subnet (macs : List HardwareAddr) :
    ∀ (h : DHCPHandler), (allocAll h macs).subnet = h.subnet := by
  induction macs with
  | nil => intro h; rfl
  | cons m rest ih =>
    intro h
    rw [allocAll_cons, ih, allocateIP_subnet]

/-- A later call for the same client returns what the first call returned and
leaves the handler as it is, whatever calls come in between. -/
theorem allocateIP_stable (h : DHCPHandler) (mac : HardwareAddr) (mid : List HardwareAddr) :
    allocateIP (allocAll (allocateIP h mac).2 mid) mac =
      ((allocateIP h mac).1, allocAll (allocateIP h mac).2 mid) := by
  cases hg : mapGet h.leases mac.String with
  | some ip =>
    rw [allocateIP_hit h mac ip hg]
    exact allocateIP_hit _ mac ip (allocAll_persist mid h _ ip hg)
  | none =>
    by_cases hx : h.nextIP > poolEnd
    · rw [allocateIP_full h mac hg hx]
      simp only
      rw [allocAll_frozen mid h hx]
      exact allocateIP_full h mac hg hx
    · have hr : (allocateIP h mac).1 ≠ [] := by
        rw [allocateIP_new h mac hg (by omega)]
        exact poolAddr_ne_nil _ _
      exact allocateIP_hit _ mac _ (allocAll_persist mid _ _ _ (allocateIP_stored h mac hr))

/-! ## The invariant of the lease engine -/

theorem countDistinct_snoc (pre : List HardwareAddr) (m : HardwareAddr) :
    countDistinct (pre ++ [m]) = if m ∈ pre then countDistinct pre else countDistinct pre + 1 := by
  induction pre with
  | nil => simp [countDistinct]
  | cons a l ih =>
    simp only [List.cons_append, countDistinct, ih, List.mem_append, List.mem_singleton,
      List.mem_cons]
    by_cases h1 : a ∈ l <;> by_cases h2 : m ∈ l <;> by_cases h3 : a = m <;>
      simp_all [eq_comm]

theorem Inv_fresh (s : IP) (n : IPNet) : Inv s n [] (NewDHCPHandler s n) where
  server := rfl
  subnet := rfl
  cursor := by simp [NewDHCPHandler, countDistinct]
  keys_nodup := by simp [NewDHCPHandler]
  values := by simp [NewDHCPHandler]
  keys_sub := by simp [NewDHCPHandler]
  keys_sup := by simp

theorem Inv_step (s : IP) (n : IPNet) (pre : List HardwareAddr) (h : DHCPHandler)
    (mac : HardwareAddr) (inv : Inv s n pre h) :
    Inv s n (pre ++ [mac]) (allocateIP h mac).2 := by
  have hc := inv.cursor
  cases hg : mapGet h.leases mac.String with
  | some ip =>
    have hmem : mac ∈ pre := by
      obtain ⟨m, hm, hs⟩ := inv.keys_sub _ (mapGet_mem _ _ _ hg)
      rw [← String_inj m mac hs]
      exact hm
    rw [allocateIP_hit h mac ip hg]
    refine ⟨inv.server, inv.subnet, ?_, inv.keys_nodup, inv.values, ?_, ?_⟩
    · rw [countDistinct_snoc, if_pos hmem]
      exact hc
    · intro p hp
      obtain ⟨m, hm, hs⟩ := inv.keys_sub p hp
      exact ⟨m, List.mem_append_left _ hm, hs⟩
    · intro hx m hm
      rcases List.mem_append.mp hm with h1 | h1
      · exact inv.keys_sup hx m h1
      · rw [List.mem_singleton.mp h1, hg]
        simp
  | none =>
    by_cases hx : h.nextIP > poolEnd
    · rw [allocateIP_full h mac hg hx]
      refine ⟨inv.server, inv.subnet, ?_, inv.keys_nodup, inv.values, ?_, ?_⟩
      · show h.nextIP = _
        rw [countDistinct_snoc]
        unfold poolEnd poolStart at *
        split <;> omega
      · intro p hp
        obtain ⟨m, hm, hs⟩ := inv.keys_sub p hp
        exact ⟨m, List.mem_append_left _ hm, hs⟩
      · intro hx2
        have hx3 : h.nextIP ≤ poolEnd := hx2
        omega
    · have hle : h.nextIP ≤ poolEnd := by omega
      have hnot : mac ∉ pre := fun hm => inv.keys_sup hle mac hm hg
      rw [allocateIP_new h mac hg hle]
      refine ⟨inv.server, inv.subnet, ?_, ?_, ?_, ?_, ?_⟩
      · show h.nextIP + 1 = _
        rw [countDistinct_snoc, if_neg hnot]
        unfold poolEnd poolStart at *
        omega
      · show ((mac.String, _) :: h.leases |>.map Prod.fst).Nodup
        rw [List.map_cons, List.nodup_cons]
        refine ⟨?_, inv.keys_nodup⟩
        intro hin
        obtain ⟨p, hp, hpk⟩ := List.mem_map.mp hin
        exact (mapGet_eq_none_iff _ _).mp hg p hp hpk
      · show ((mac.String, _) :: h.leases |>.map Prod.snd) = _
        have hsub : h.nextIP + 1 - poolStart = (h.nextIP - poolStart) + 1 := by
          unfold poolStart at *
          omega
        have hback : poolStart + (h.nextIP - poolStart) = h.nextIP := by
          unfold poolStart at *
          omega
        simp only [List.map_cons, hsub, List.range_succ, List.map_append, List.map_nil,
          List.reverse_append, List.reverse_cons, List.reverse_nil, List.nil_append,
          List.singleton_append, hback, inv.values, inv.subnet]
      · intro p hp
        rcases List.mem_cons.mp hp with h1 | h1
        · exact ⟨mac, by simp, by rw [h1]⟩
        · obtain ⟨m, hm, hs⟩ := inv.keys_sub p h1
          exact ⟨m, List.mem_append_left _ hm, hs⟩
      · intro _ m hm
        rcases List.mem_append.mp hm with h1 | h1
        · have h2 := inv.keys_sup hle m h1
          cases hq : mapGet h.leases m.String with
          | none => exact absurd hq h2
          | some a =>
            have h3 := allocateIP_persist h mac _ a hq
            rw [allocateIP_new h mac hg hle] at h3
            rw [h3]
            simp
        · rw [List.mem_singleton.mp h1]
          simp [mapGet]

theorem Inv_allocAll (s : IP) (n : IPNet) (macs : List HardwareAddr) :
    Inv s n macs (allocAll (NewDHCPHandler s n) macs) := by
  induction macs using List.reverseRecOn with
  | nil => exact Inv_fresh s n
  | append_singleton l a ih =>
    rw [allocAll_snoc]
    exact Inv_step s n l _ a ih

/-! ## Consequences of the invariant -/

theorem callsBefore_split (p1 rest : List HardwareAddr) (mac : HardwareAddr)
    (hnot : mac ∉ p1) : callsBefore mac (p1 ++ mac :: rest) = p1 := by
  induction p1 with
  | nil => simp [callsBefore]
  | cons a l ih =>
    have hne : a ≠ mac := fun h => hnot (by simp [h])
    have hl : mac ∉ l := fun h => hnot (List.mem_cons_of_mem _ h)
    simp [callsBefore, hne, ih hl]

theorem clientRank_new (pre : List HardwareAddr) (mac : HardwareAddr) (hnot : mac ∉ pre) :
    clientRank (pre ++ [mac]) mac = countDistinct pre + 1 := by
  unfold clientRank
  rw [callsBefore_split pre [] mac hnot]

theorem clientRank_seen (p1 p2 : List HardwareAddr) (mac : HardwareAddr) (hnot : mac ∉ p1) :
    clientRank ((p1 ++ mac :: p2) ++ [mac]) mac = countDistinct p1 + 1 := by
  unfold clientRank
  rw [List.append_assoc, List.cons_append, callsBefore_split p1 _ mac hnot]

theorem alloc_first (s : IP) (n : IPNet) (pre : List HardwareAddr) (mac : HardwareAddr)
    (hnot : mac ∉ pre) :
    (allocateIP (allocAll (NewDHCPHandler s n) pre) mac).1 =
      if countDistinct pre + 1 ≤ 101 then poolAddr n (poolStart + countDistinct pre) else [] := by
  have inv := Inv_allocAll s n pre
  have hc := inv.cursor
  have hg : mapGet (allocAll (NewDHCPHandler s n) pre).leases mac.String = none := by
    rw [mapGet_eq_none_iff]
    intro p hp hpk
    obtain ⟨m, hm, hs⟩ := inv.keys_sub p hp
    rw [hpk] at hs
    rw [String_inj m mac hs] at hm
    exact hnot hm
  by_cases hx : (allocAll (NewDHCPHandler s n) pre).nextIP > poolEnd
  · rw [allocateIP_full _ mac hg hx]
    unfold poolEnd poolStart at *
    rw [if_neg (by omega)]
  · rw [allocateIP_new _ mac hg (by omega)]
    unfold poolEnd poolStart at *
    rw [if_pos (by omega), inv.subnet, hc]
    show poolAddr n _ = poolAddr n _
    congr 1
    omega

theorem alloc_rank (s : IP) (n : IPNet) (pre : List HardwareAddr) (mac : HardwareAddr) :
    (allocateIP (allocAll (NewDHCPHandler s n) pre) mac).1 =
      if clientRank (pre ++ [mac]) mac ≤ 101
      then poolAddr n (poolStart + clientRank (pre ++ [mac]) mac - 1) else [] := by
  by_cases hmem : mac ∈ pre
  · obtain ⟨p1, p2, hsplit, hnot⟩ := List.eq_append_cons_of_mem hmem
    subst hsplit
    rw [clientRank_seen p1 p2 mac hnot, allocAll_append, allocAll_cons, allocateIP_stable,
      alloc_first s n p1 mac hnot]
    simp
  · rw [clientRank_new pre mac hmem, alloc_first s n pre mac hmem]
    simp

theorem poolAddr_slash24 (n : IPNet) (a b c d o : Nat) (hip : n.IP.To4 = [a, b, c, d])
    (ha : a < 256) (hb : b < 256) (hc : c < 256) (hmask : n.Mask = [255, 255, 255, 0]) :
    poolAddr n o = [a, b, c, o] := by
  have e : ∀ x : Nat, x < 256 → x &&& 255 = x := by
    intro x hx
    have := Nat.and_pow_two_sub_one_eq_mod x 8
    simp only [Nat.reducePow, Nat.add_one_sub_one] at this
    rw [this]
    omega
  simp [poolAddr, networkAddr, hip, hmask, IP.Mask, copy, e a ha, e b hb, e c hc]

theorem values_nodup (n : IPNet) (k : Nat) :
    (((List.range k).map (fun i => poolAddr n (poolStart + i))).reverse).Nodup := by
  rw [List.nodup_reverse]
  apply List.Nodup.map _ (List.nodup_range k)
  intro i j hij
  have := poolAddr_inj n _ _ hij
  omega

theorem Inv_injective (s : IP) (n : IPNet) (pre : List HardwareAddr) (h : DHCPHandler)
    (inv : Inv s n pre h) : LeasesInjective h.leases := by
  intro k1 k2 a1 a2 h1 h2 hne heq
  subst heq
  have hnd : (h.leases.map Prod.snd).Nodup := by
    rw [inv.values]
    exact values_nodup n _
  have := List.inj_on_of_nodup_map hnd (mapGet_mem _ _ _ h1) (mapGet_mem _ _ _ h2) rfl
  exact hne (congrArg Prod.fst this)

theorem Inv_length (s : IP) (n : IPNet) (pre : List HardwareAddr) (h : DHCPHandler)
    (inv : Inv s n pre h) : h.leases.length = h.nextIP - poolStart := by
  have := congrArg List.length inv.values
  simpa using this

theorem Inv_value_form (s : IP) (n : IPNet) (pre : List HardwareAddr) (h : DHCPHandler)
    (inv : Inv s n pre h) (k : String) (a : IP) (hk : mapGet h.leases k = some a) :
    ∃ o, poolStart ≤ o ∧ o < h.nextIP ∧ a = poolAddr n o := by
  have hmem : a ∈ h.leases.map Prod.snd := List.mem_map_of_mem Prod.snd (mapGet_mem _ _ _ hk)
  rw [inv.values, List.mem_reverse, List.mem_map] at hmem
  obtain ⟨i, hi, he⟩ := hmem
  rw [List.mem_range] at hi
  refine ⟨poolStart + i, by omega, by omega, he.symm⟩

theorem Inv_value_exists (s : IP) (n : IPNet) (pre : List HardwareAddr) (h : DHCPHandler)
    (inv : Inv s n pre h) (o : Nat) (h1 : poolStart ≤ o) (h2 : o < h.nextIP) :
    ∃ k, mapGet h.leases k = some (poolAddr n o) := by
  have hmem : poolAddr n o ∈ h.leases.map Prod.snd := by
    rw [inv.values, List.mem_reverse, List.mem_map]
    refine ⟨o - poolStart, ?_, ?_⟩
    · rw [List.mem_range]
      omega
    · congr 1
      omega
  obtain ⟨p, hp, he⟩ := List.mem_map.mp hmem
  refine ⟨p.1, mapGet_of_mem_nodup _ _ _ inv.keys_nodup ?_⟩
  rw [← he]
  exact hp

/-! ## The DORA handler -/

/-- The modifiers both handlers pass to `NewReplyFromRequest`. -/
theorem reply_fields (x : Nat) (req : DHCPv4) (t : Nat) (sIP yIP : IP) (mask : IPMask) :
    ∃ resp, NewReplyFromRequest (some x) req
        [WithMessageType t, WithServerIP sIP, WithYourIP yIP,
         WithOption (OptSubnetMask mask).1 (OptSubnetMask mask).2,
         WithOption (OptRouter sIP).1 (OptRouter sIP).2,
         WithOption (OptDNS sIP).1 (OptDNS sIP).2,
         WithOption (OptIPAddressLeaseTime leaseTime).1 (OptIPAddressLeaseTime leaseTime).2,
         WithOption (OptServerIdentifier sIP).1 (OptServerIdentifier sIP).2] = .ok resp ∧
      resp.MessageType = t ∧ resp.YourIPAddr = yIP ∧
      resp.Options.Get OptionSubnetMask = some (.mask mask) ∧
      resp.Options.Get OptionRouter = some (.ips [sIP]) ∧
      resp.Options.Get OptionDomainNameServer = some (.ips [sIP]) ∧
      resp.Options.Get OptionIPAddressLeaseTime = some (.duration leaseTime) ∧
      resp.Options.Get OptionServerIdentifier = some (.ip sIP) := by
  refine ⟨_, rfl, ?_⟩
  cases hrel : req.Options.Get OptionRelayAgentInformation <;>
    simp [WithOptionCopied, hrel, WithReply, WithGatewayIP, WithMessageType, WithOption,
      WithServerIP, WithYourIP, OptSubnetMask, OptRouter, OptDNS, OptIPAddressLeaseTime,
      OptServerIdentifier, Options.Update, Options.Get, DHCPv4.MessageType,
      OptionDHCPMessageType, OptionSubnetMask, OptionRouter, OptionDomainNameServer,
      OptionIPAddressLeaseTime, OptionServerIdentifier, OptionRelayAgentInformation]

theorem handleDiscover_state (h : DHCPHandler) (xid : Option Nat) (req : DHCPv4) :
    (handleDiscover h xid req).2 = (allocateIP h req.ClientHWAddr).2 := by
  unfold handleDiscover
  split
  split <;> simp_all

theorem handleRequest_state (h : DHCPHandler) (xid : Option Nat) (req : DHCPv4) :
    (handleRequest h xid req).2 = (allocateIP h req.ClientHWAddr).2 := by
  unfold handleRequest
  split
  split <;> simp_all

theorem sendResponse_state (r : Except String DHCPv4 × DHCPHandler) :
    (sendResponse r).2 = r.2 := by
  obtain ⟨e, h⟩ := r
  cases e <;> rfl

theorem Handle_state (h : DHCPHandler) (xid : Option Nat) (peer : UDPAddr) (req : DHCPv4) :
    (Handle h xid peer req).2 = h ∨
      (Handle h xid peer req).2 = (allocateIP h req.ClientHWAddr).2 := by
  unfold Handle
  split
  · exact Or.inl rfl
  · simp only
    split
    · rw [sendResponse_state, handleDiscover_state]
      exact Or.inr rfl
    · split
      · rw [sendResponse_state, handleRequest_state]
        exact Or.inr rfl
      · exact Or.inl rfl

theorem handleAll_cons (h : DHCPHandler) (e : Event) (evs : List Event) :
    handleAll h (e :: evs) = handleAll (Handle h e.xid e.peer e.req).2 evs := rfl

theorem handleAll_persist (evs : List Event) :
    ∀ (h : DHCPHandler) (k : String) (a : IP),
      mapGet h.leases k = some a → mapGet (handleAll h evs).leases k = some a := by
  induction evs with
  | nil => intro h k a hk; exact hk
  | cons e rest ih =>
    intro h k a hk
    rw [handleAll_cons]
    apply ih
    rcases Handle_state h e.xid e.peer e.req with h1 | h1
    · rw [h1]; exact hk
    · rw [h1]; exact allocateIP_persist h _ k a hk

theorem handleAll_config (evs : List Event) :
    ∀ (h : DHCPHandler), (handleAll h evs).serverIP = h.serverIP ∧
      (handleAll h evs).subnet = h.subnet := by
  induction evs with
  | nil => intro h; exact ⟨rfl, rfl⟩
  | cons e rest ih =>
    intro h
    rw [handleAll_cons]
    rcases Handle_state h e.xid e.peer e.req with h1 | h1
    · rw [h1]; exact ih h
    · rw [h1, (ih _).1, (ih _).2, allocateIP_serverIP, allocateIP_subnet]
      exact ⟨rfl, rfl⟩

theorem handleAll_frozen (evs : List Event) :
    ∀ (h : DHCPHandler), h.nextIP > poolEnd → handleAll h evs = h := by
  induction evs with
  | nil => intro h _; rfl
  | cons e rest ih =>
    intro h hx
    rw [handleAll_cons]
    rcases Handle_state h e.xid e.peer e.req with h1 | h1
    · rw [h1]; exact ih h hx
    · rw [h1, allocateIP_frozen h _ hx]; exact ih h hx

theorem handleDiscover_ok (h : DHCPHandler) (x : Nat) (req : DHCPv4)
    (hok : (allocateIP h req.ClientHWAddr).1 ≠ []) :
    ∃ resp, handleDiscover h (some x) req = (.ok resp, (allocateIP h req.ClientHWAddr).2) ∧
      resp.MessageType = MessageTypeOffer ∧
      resp.YourIPAddr = (allocateIP h req.ClientHWAddr).1 ∧
      resp.Options.Get OptionSubnetMask = some (.mask h.subnet.Mask) ∧
      resp.Options.Get OptionRouter = some (.ips [h.serverIP]) ∧
      resp.Options.Get OptionDomainNameServer = some (.ips [h.serverIP]) ∧
      resp.Options.Get OptionIPAddressLeaseTime = some (.duration leaseTime) ∧
      resp.Options.Get OptionServerIdentifier = some (.ip h.serverIP) := by
  obtain ⟨resp, hr, hf⟩ := reply_fields x req MessageTypeOffer h.serverIP
    (allocateIP h req.ClientHWAddr).1 h.subnet.Mask
  refine ⟨resp, ?_, hf⟩
  unfold handleDiscover
  split
  rename_i ip h2 heq
  rw [heq] at hok hr
  simp only at hok hr
  have e1 : h2.serverIP = h.serverIP := by
    have := allocateIP_serverIP h req.ClientHWAddr
    rw [heq] at this
    exact this
  have e2 : h2.subnet = h.subnet := by
    have := allocateIP_subnet h req.ClientHWAddr
    rw [heq] at this
    exact this
  rw [if_neg hok, e1, e2, hr, heq]

theorem handleRequest_ok (h : DHCPHandler) (x : Nat) (req : DHCPv4)
    (hok : (allocateIP h req.ClientHWAddr).1 ≠ []) :
    ∃ resp, handleRequest h (some x) req = (.ok resp, (allocateIP h req.ClientHWAddr).2) ∧
      resp.MessageType = MessageTypeAck ∧
      resp.YourIPAddr = (allocateIP h req.ClientHWAddr).1 ∧
      resp.Options.Get OptionSubnetMask = some (.mask h.subnet.Mask) ∧
      resp.Options.Get OptionRouter = some (.ips [h.serverIP]) ∧
      resp.Options.Get OptionDomainNameServer = some (.ips [h.serverIP]) ∧
      resp.Options.Get OptionIPAddressLeaseTime = some (.duration leaseTime) ∧
      resp.Options.Get OptionServerIdentifier = some (.ip h.serverIP) := by
  obtain ⟨resp, hr, hf⟩ := reply_fields x req MessageTypeAck h.serverIP
    (allocateIP h req.ClientHWAddr).1 h.subnet.Mask
  refine ⟨resp, ?_, hf⟩
  unfold handleRequest
  split
  rename_i ip h2 heq
  rw [heq] at hok hr
  simp only at hok hr
  have e1 : h2.serverIP = h.serverIP := by
    have := allocateIP_serverIP h req.ClientHWAddr
    rw [heq] at this
    exact this
  have e2 : h2.subnet = h.subnet := by
    have := allocateIP_subnet h req.ClientHWAddr
    rw [heq] at this
    exact this
  rw [if_neg hok, e1, e2, hr, heq]

theorem handleDiscover_nil (h : DHCPHandler) (xid : Option Nat) (req : DHCPv4)
    (hnil : (allocateIP h req.ClientHWAddr).1 = []) :
    handleDiscover h xid req =
      (.error "no IPs available in pool", (allocateIP h req.ClientHWAddr).2) := by
  unfold handleDiscover
  split
  rename_i ip h2 heq
  rw [heq] at hnil
  simp only at hnil
  rw [if_pos hnil, heq]

theorem handleRequest_nil (h : DHCPHandler) (xid : Option Nat) (req : DHCPv4)
    (hnil : (allocateIP h req.ClientHWAddr).1 = []) :
    handleRequest h xid req =
      (.error "no IPs available in pool", (allocateIP h req.ClientHWAddr).2) := by
  unfold handleRequest
  split
  rename_i ip h2 heq
  rw [heq] at hnil
  simp only at hnil
  rw [if_pos hnil, heq]

theorem handleDiscover_none (h : DHCPHandler) (req : DHCPv4) :
    ∃ e, (handleDiscover h none req).1 = .error e := by
  unfold handleDiscover
  split
  split
  · exact ⟨_, rfl⟩
  · exact ⟨_, rfl⟩

theorem handleRequest_none (h : DHCPHandler) (req : DHCPv4) :
    ∃ e, (handleRequest h none req).1 = .error e := by
  unfold handleRequest
  split
  split
  · exact ⟨_, rfl⟩
  · exact ⟨_, rfl⟩

/-! ## The DNS responder -/

theorem answer_fold (serverIP : IP) (qs : List Question) :
    ∀ msg : Msg, (qs.foldl
      (fun msg q =>
        let rr := RR.A { Name := q.Name, Rrtype := TypeA, Class := ClassINET, Ttl := 60 } serverIP
        { msg with Answer := msg.Answer ++ [rr] })
      msg).Answer =
      msg.Answer ++ qs.map (fun q =>
        RR.A { Name := q.Name, Rrtype := TypeA, Class := ClassINET, Ttl := 60 } serverIP) := by
  induction qs with
  | nil => intro msg; simp
  | cons q rest ih =>
    intro msg
    rw [List.foldl_cons, ih]
    simp

theorem SetReply_Answer (dns request : Msg) : (dns.SetReply request).Answer = dns.Answer := by
  unfold Msg.SetReply
  simp only
  split <;> split <;> rfl

theorem newDNSHandler_Answer (serverIP : IP) (r : Msg) :
    (newDNSHandler serverIP r).Answer = r.Question.map (fun q =>
      RR.A { Name := q.Name, Rrtype := TypeA, Class := ClassINET, Ttl := 60 } serverIP) := by
  unfold newDNSHandler
  simp only
  rw [answer_fold]
  simp [SetReply_Answer]

theorem handleDiscover_ok_inv (h : DHCPHandler) (xid : Option Nat) (req resp : DHCPv4)
    (hr : (handleDiscover h xid req).1 = .ok resp) :
    ∃ x, xid = some x ∧ (allocateIP h req.ClientHWAddr).1 ≠ [] := by
  cases xid with
  | none =>
    obtain ⟨e, he⟩ := handleDiscover_none h req
    rw [he] at hr
    cases hr
  | some x =>
    refine ⟨x, rfl, ?_⟩
    intro hnil
    rw [handleDiscover_nil h (some x) req hnil] at hr
    cases hr

theorem handleRequest_ok_inv (h : DHCPHandler) (xid : Option Nat) (req resp : DHCPv4)
    (hr : (handleRequest h xid req).1 = .ok resp) :
    ∃ x, xid = some x ∧ (allocateIP h req.ClientHWAddr).1 ≠ [] := by
  cases xid with
  | none =>
    obtain ⟨e, he⟩ := handleRequest_none h req
    rw [he] at hr
    cases hr
  | some x =>
    refine ⟨x, rfl, ?_⟩
    intro hnil
    rw [handleRequest_nil h (some x) req hnil] at hr
    cases hr

theorem sendResponse_some (r : Except String DHCPv4 × DHCPHandler) (dst : UDPAddr)
    (resp : DHCPv4) (hs : (sendResponse r).1 = some (dst, resp)) :
    r.1 = .ok resp ∧ dst = { IP := IPv4bcast, Port := 68 } := by
  obtain ⟨e, h⟩ := r
  cases e with
  | error m => simp [sendResponse] at hs
  | ok v =>
    simp only [sendResponse, Option.some.injEq, Prod.mk.injEq] at hs
    exact ⟨by rw [hs.2], hs.1.symm⟩

theorem exhausted_of_length (s : IP) (n : IPNet) (macs : List HardwareAddr)
    (hfull : (allocAll (NewDHCPHandler s n) macs).leases.length = poolEnd - poolStart + 1) :
    (allocAll (NewDHCPHandler s n) macs).nextIP > poolEnd := by
  have hl := Inv_length s n macs _ (Inv_allocAll s n macs)
  unfold poolEnd poolStart at *
  omega

theorem NewReplyFromRequest_none (req : DHCPv4) (modifiers : List Modifier) :
    NewReplyFromRequest none req modifiers = .error "could not get random number" := rfl

theorem handleDiscover_builder_error (h : DHCPHandler) (req : DHCPv4)
    (hok : (allocateIP h req.ClientHWAddr).1 ≠ []) :
    handleDiscover h none req =
      (.error "could not get random number", (allocateIP h req.ClientHWAddr).2) := by
  unfold handleDiscover
  split
  rename_i ip h2 heq
  rw [heq] at hok
  simp only at hok
  rw [if_neg hok, heq, NewReplyFromRequest_none]

theorem handleRequest_builder_error (h : DHCPHandler) (req : DHCPv4)
    (hok : (allocateIP h req.ClientHWAddr).1 ≠ []) :
    handleRequest h none req =
      (.error "could not get random number", (allocateIP h req.ClientHWAddr).2) := by
  unfold handleRequest
  split
  rename_i ip h2 heq
  rw [heq] at hok
  simp only at hok
  rw [if_neg hok, heq, NewReplyFromRequest_none]

/-! ## The claims -/

/-- C1: from a fresh handler on a /24 subnet `a.b.c.0`, after any sequence of
calls, the client whose rank among the distinct clients seen so far is `r`
receives `a.b.c.(poolStart + r - 1)` when `r` is at most the pool size 101, and
`nil` when `r` is larger (the 102nd client in particular). -/
theorem C1_nth_client_gets_nth_address (s : IP) (n : IPNet) (a b c d : Nat)
    (hip : n.IP.To4 = [a, b, c, d]) (ha : a < 256) (hb : b < 256) (hc : c < 256)
    (hmask : n.Mask = [255, 255, 255, 0]) (pre : List HardwareAddr) (mac : HardwareAddr) :
    (allocateIP (allocAll (NewDHCPHandler s n) pre) mac).1 =
      if clientRank (pre ++ [mac]) mac ≤ poolEnd - poolStart + 1
      then [a, b, c, poolStart + clientRank (pre ++ [mac]) mac - 1] else [] := by
  rw [alloc_rank s n pre mac, poolAddr_slash24 n a b c d _ hip ha hb hc hmask]
  rfl

/-- C1 at `192.168.1.0/24`: after calls for A, B, A the second client B is
given `.101`. -/
theorem C1_witness :
    (exampleNet24.IP.To4 = [192, 168, 1, 0] ∧ exampleNet24.Mask = [255, 255, 255, 0]) ∧
    (allocateIP (allocAll (NewDHCPHandler exampleServer exampleNet24) [macA, macB, macA])
      macB).1 = [192, 168, 1, 101] :=
  ⟨⟨by decide, by decide⟩,
    (C1_nth_client_gets_nth_address exampleServer exampleNet24 192 168 1 0 (by decide)
      (by decide) (by decide) (by decide) (by decide) [macA, macB, macA] macB).trans
      (by decide)⟩

/-- C2: in every handler state, once `allocateIP` has returned an address `a`
for client `c`, a later call for `c`, after any calls in between, returns `a`
again and changes neither the lease table nor the cursor; and a call for any
client that holds a lease leaves the handler as it is. -/
theorem C2_allocate_idempotent (h : DHCPHandler) (c : HardwareAddr) (a : IP)
    (mid : List HardwareAddr) (hret : (allocateIP h c).1 = a) (haddr : a ≠ []) :
    (allocateIP (allocAll (allocateIP h c).2 mid) c).1 = a ∧
    (allocateIP (allocAll (allocateIP h c).2 mid) c).2.leases =
      (allocAll (allocateIP h c).2 mid).leases ∧
    (allocateIP (allocAll (allocateIP h c).2 mid) c).2.nextIP =
      (allocAll (allocateIP h c).2 mid).nextIP ∧
    mapGet (allocAll (allocateIP h c).2 mid).leases c.String = some a := by
  have hst := allocateIP_stable h c mid
  have hstored := allocateIP_stored h c (by rw [hret]; exact haddr)
  rw [hst, hret]
  rw [hret] at hstored
  exact ⟨rfl, rfl, rfl, allocAll_persist mid _ _ _ hstored⟩

/-- C2 on a handler that already serves B: A is given `.101`, and after calls
for C, B, C it is given `.101` again. -/
theorem C2_witness :
    ((allocateIP (allocAll (NewDHCPHandler exampleServer exampleNet24) [macB]) macA).1 =
        [192, 168, 1, 101] ∧ ([192, 168, 1, 101] : IP) ≠ []) ∧
    (allocateIP (allocAll (allocateIP (allocAll (NewDHCPHandler exampleServer exampleNet24)
      [macB]) macA).2 [macC, macB, macC]) macA).1 = [192, 168, 1, 101] :=
  ⟨⟨by decide, by decide⟩,
    (C2_allocate_idempotent (allocAll (NewDHCPHandler exampleServer exampleNet24) [macB]) macA
      [192, 168, 1, 101] [macC, macB, macC] (by decide) (by decide)).1⟩

/-- C3: in every state reached from a fresh handler the lease table maps
distinct clients to distinct addresses, and two successful calls of one run
for distinct hardware addresses return distinct addresses. -/
theorem C3_no_address_twice (s : IP) (n : IPNet) (macs mid : List HardwareAddr)
    (m1 m2 : HardwareAddr) :
    LeasesInjective (allocAll (NewDHCPHandler s n) macs).leases ∧
    (m1 ≠ m2 →
      (allocateIP (allocAll (NewDHCPHandler s n) macs) m1).1 ≠ [] →
      (allocateIP (allocAll (NewDHCPHandler s n) (macs ++ m1 :: mid)) m2).1 ≠ [] →
      (allocateIP (allocAll (NewDHCPHandler s n) macs) m1).1 ≠
        (allocateIP (allocAll (NewDHCPHandler s n) (macs ++ m1 :: mid)) m2).1) := by
  refine ⟨Inv_injective s n macs _ (Inv_allocAll s n macs), ?_⟩
  intro hne h1 h2
  have inv := Inv_allocAll s n ((macs ++ m1 :: mid) ++ [m2])
  rw [allocAll_snoc] at inv
  have hinj := Inv_injective s n _ _ inv
  have e2 := allocateIP_stored _ m2 h2
  have e1 : mapGet (allocateIP (allocAll (NewDHCPHandler s n) (macs ++ m1 :: mid)) m2).2.leases
      m1.String = some (allocateIP (allocAll (NewDHCPHandler s n) macs) m1).1 := by
    apply allocateIP_persist
    rw [allocAll_append, allocAll_cons]
    exact allocAll_persist mid _ _ _ (allocateIP_stored _ m1 h1)
  exact hinj _ _ _ _ e1 e2 (fun hs => hne (String_inj m1 m2 hs))

/-- C3 on the run A, C, B: A and B are both served, with different addresses. -/
theorem C3_witness :
    (macA ≠ macB ∧
      (allocateIP (allocAll (NewDHCPHandler exampleServer exampleNet24) []) macA).1 ≠ [] ∧
      (allocateIP (allocAll (NewDHCPHandler exampleServer exampleNet24) ([] ++ macA :: [macC]))
        macB).1 ≠ []) ∧
    (allocateIP (allocAll (NewDHCPHandler exampleServer exampleNet24) []) macA).1 ≠
      (allocateIP (allocAll (NewDHCPHandler exampleServer exampleNet24) ([] ++ macA :: [macC]))
        macB).1 :=
  ⟨⟨by decide, by decide, by decide⟩,
    (C3_no_address_twice exampleServer exampleNet24 [] [macC] macA macB).2 (by decide)
      (by decide) (by decide)⟩

/-- C4, as the claim states it, fails: on the subnet `192.168.1.128/25` the
first lease is `192.168.1.100`, which is not in the subnet and is not the
network address `192.168.1.128` plus a host number in `[100, 200]`. -/
theorem C4_counterexample :
    mapGet (allocAll (NewDHCPHandler [192, 168, 1, 129] exampleNet25) [macA]).leases
      macA.String = some [192, 168, 1, 100] ∧
    exampleNet25.Contains [192, 168, 1, 100] = false ∧
    networkAddr exampleNet25 = [192, 168, 1, 128] ∧
    ¬ ∃ o, poolStart ≤ o ∧ o ≤ poolEnd ∧
      ipToNat [192, 168, 1, 100] = ipToNat (networkAddr exampleNet25) + o := by
  refine ⟨by decide, by decide, by decide, ?_⟩
  rintro ⟨o, _, _, ho⟩
  have e : ipToNat (networkAddr exampleNet25) = ipToNat [192, 168, 1, 100] + 28 := by decide
  omega

/-- C4, amended: every address in the lease table of a state reached from a
fresh handler is the network address with its last byte replaced by a host
number in `[poolStart, poolEnd]`; when the mask is four bytes with last byte 0
this is the network address plus the host number, and it lies in the subnet. -/
theorem C4_lease_address_form (s : IP) (n : IPNet) (macs : List HardwareAddr) (k : String)
    (a : IP) (hk : mapGet (allocAll (NewDHCPHandler s n) macs).leases k = some a) :
    ∃ o, poolStart ≤ o ∧ o ≤ poolEnd ∧ a = poolAddr n o ∧
      ∀ i0 i1 i2 i3 m0 m1 m2 : Nat, n.IP.To4 = [i0, i1, i2, i3] → n.Mask = [m0, m1, m2, 0] →
        ipToNat a = ipToNat (networkAddr n) + o ∧ n.Contains a = true := by
  have inv := Inv_allocAll s n macs
  obtain ⟨o, ho1, ho2, hoa⟩ := Inv_value_form s n macs _ inv k a hk
  have hcur := inv.cursor
  refine ⟨o, ho1, ?_, hoa, ?_⟩
  · unfold poolStart poolEnd at *
    omega
  · intro i0 i1 i2 i3 m0 m1 m2 hip hmask
    have hnet : networkAddr n = [i0 &&& m0, i1 &&& m1, i2 &&& m2, 0] := by
      simp [networkAddr, hip, hmask, IP.Mask, copy]
    have hnn : networkNumberAndMask n = ([i0, i1, i2, i3], [m0, m1, m2, 0]) := by
      simp [networkNumberAndMask, hip, hmask]
    have hand : ∀ x m : Nat, x &&& m &&& m = x &&& m := by
      intro x m
      rw [Nat.land_assoc, Nat.and_self]
    rw [hoa]
    constructor
    · simp [poolAddr, hnet, ipToNat]
    · simp [IPNet.Contains, hnn, poolAddr, hnet, IP.To4, hand]

/-- C4 amended, at `192.168.1.0/24` after one call for A: the lease `.100`
lies in the subnet. -/
theorem C4_witness :
    mapGet (allocAll (NewDHCPHandler exampleServer exampleNet24) [macA]).leases macA.String =
      some [192, 168, 1, 100] ∧
    exampleNet24.Contains [192, 168, 1, 100] = true :=
  ⟨by decide,
    (C4_lease_address_form exampleServer exampleNet24 [macA] macA.String [192, 168, 1, 100]
      (by decide)).elim
      (fun _ ho => (ho.2.2.2 192 168 1 0 255 255 255 (by decide) (by decide)).2)⟩

/-- C5, as the claim states it, fails: `allocateIP` succeeds for the client,
yet `handleDiscover` returns an error when the reply builder cannot draw a
transaction id. -/
theorem C5_counterexample :
    (allocateIP (NewDHCPHandler exampleServer exampleNet24)
      (exampleRequest MessageTypeDiscover macA).ClientHWAddr).1 = [192, 168, 1, 100] ∧
    (handleDiscover (NewDHCPHandler exampleServer exampleNet24) none
      (exampleRequest MessageTypeDiscover macA)).1 = .error "could not get random number" :=
  ⟨by decide, rfl⟩

/-- C5, amended: when `allocateIP` succeeds for the client of a request and
the reply builder draws its transaction id, `handleDiscover` returns without
error an Offer whose `YourIPAddr` is the address `allocateIP` gives the client,
whose subnet-mask option is the configured mask, whose router, DNS and
server-identifier options are the configured server address, and whose
lease-time option is one hour; when the reply builder returns an error,
`handleDiscover` returns that error and no response. In both cases the handler
is left as `allocateIP` leaves it. -/
theorem C5_discover_offer (h : DHCPHandler) (x : Nat) (req : DHCPv4)
    (hok : (allocateIP h req.ClientHWAddr).1 ≠ []) :
    (∃ resp, handleDiscover h (some x) req = (.ok resp, (allocateIP h req.ClientHWAddr).2) ∧
      resp.MessageType = MessageTypeOffer ∧
      resp.YourIPAddr = (allocateIP h req.ClientHWAddr).1 ∧
      resp.Options.Get OptionSubnetMask = some (.mask h.subnet.Mask) ∧
      resp.Options.Get OptionRouter = some (.ips [h.serverIP]) ∧
      resp.Options.Get OptionDomainNameServer = some (.ips [h.serverIP]) ∧
      resp.Options.Get OptionIPAddressLeaseTime = some (.duration Hour) ∧
      resp.Options.Get OptionServerIdentifier = some (.ip h.serverIP)) ∧
    (∀ (xid : Option Nat) (e : String),
      NewReplyFromRequest xid req
        [WithMessageType MessageTypeOffer,
         WithServerIP h.serverIP,
         WithYourIP (allocateIP h req.ClientHWAddr).1,
         WithOption (OptSubnetMask h.subnet.Mask).1 (OptSubnetMask h.subnet.Mask).2,
         WithOption (OptRouter h.serverIP).1 (OptRouter h.serverIP).2,
         WithOption (OptDNS h.serverIP).1 (OptDNS h.serverIP).2,
         WithOption (OptIPAddressLeaseTime leaseTime).1 (OptIPAddressLeaseTime leaseTime).2,
         WithOption (OptServerIdentifier h.serverIP).1 (OptServerIdentifier h.serverIP).2]
        = .error e →
      handleDiscover h xid req = (.error e, (allocateIP h req.ClientHWAddr).2)) ∧
    handleDiscover h none req =
      (.error "could not get random number", (allocateIP h req.ClientHWAddr).2) := by
  refine ⟨?_, ?_, handleDiscover_builder_error h req hok⟩
  · obtain ⟨resp, h1, h2, h3, h4, h5, h6, h7, h8⟩ := handleDiscover_ok h x req hok
    refine ⟨resp, h1, h2, h3, h4, h5, h6, ?_, h8⟩
    rw [h7]
    simp [leaseTime]
  · intro xid e he
    cases xid with
    | some y =>
      obtain ⟨resp, hr, _⟩ := reply_fields y req MessageTypeOffer h.serverIP
        (allocateIP h req.ClientHWAddr).1 h.subnet.Mask
      rw [hr] at he
      cases he
    | none =>
      rw [NewReplyFromRequest_none] at he
      cases he
      exact handleDiscover_builder_error h req hok

/-- C5 amended, on the Discover of the tests: the Offer carries `.100` when the
builder succeeds, and the builder's error comes back when it fails. -/
theorem C5_witness :
    (allocateIP (NewDHCPHandler exampleServer exampleNet24)
      (exampleRequest MessageTypeDiscover macA).ClientHWAddr).1 ≠ [] ∧
    (∃ resp, handleDiscover (NewDHCPHandler exampleServer exampleNet24) (some 1)
        (exampleRequest MessageTypeDiscover macA) =
        (.ok resp, (allocateIP (NewDHCPHandler exampleServer exampleNet24)
          (exampleRequest MessageTypeDiscover macA).ClientHWAddr).2) ∧
      resp.MessageType = MessageTypeOffer ∧
      resp.YourIPAddr = (allocateIP (NewDHCPHandler exampleServer exampleNet24)
        (exampleRequest MessageTypeDiscover macA).ClientHWAddr).1 ∧
      resp.Options.Get OptionSubnetMask =
        some (.mask (NewDHCPHandler exampleServer exampleNet24).subnet.Mask) ∧
      resp.Options.Get OptionRouter =
        some (.ips [(NewDHCPHandler exampleServer exampleNet24).serverIP]) ∧
      resp.Options.Get OptionDomainNameServer =
        some (.ips [(NewDHCPHandler exampleServer exampleNet24).serverIP]) ∧
      resp.Options.Get OptionIPAddressLeaseTime = some (.duration Hour) ∧
      resp.Options.Get OptionServerIdentifier =
        some (.ip (NewDHCPHandler exampleServer exampleNet24).serverIP)) ∧
    handleDiscover (NewDHCPHandler exampleServer exampleNet24) none
        (exampleRequest MessageTypeDiscover macA) =
      (.error "could not get random number",
        (allocateIP (NewDHCPHandler exampleServer exampleNet24)
          (exampleRequest MessageTypeDiscover macA).ClientHWAddr).2) :=
  ⟨by decide,
    (C5_discover_offer (NewDHCPHandler exampleServer exampleNet24) 1
      (exampleRequest MessageTypeDiscover macA) (by decide)).1,
    (C5_discover_offer (NewDHCPHandler exampleServer exampleNet24) 1
      (exampleRequest MessageTypeDiscover macA) (by decide)).2.2⟩

/-- C6, as the claim states it, fails: the Discover of a client is answered
with an Offer carrying `.100`, yet the later `handleRequest` of the same client
returns an error when the reply builder cannot draw a transaction id. -/
theorem C6_counterexample :
    (∃ offer, (handleDiscover (NewDHCPHandler exampleServer exampleNet24) (some 1)
        (exampleRequest MessageTypeDiscover macA)).1 = .ok offer ∧
      offer.MessageType = MessageTypeOffer ∧ offer.YourIPAddr = [192, 168, 1, 100]) ∧
    (handleRequest (handleDiscover (NewDHCPHandler exampleServer exampleNet24) (some 1)
        (exampleRequest MessageTypeDiscover macA)).2 none
      (exampleRequest MessageTypeRequest macA)).1 = .error "could not get random number" :=
  ⟨⟨_, rfl, by decide, by decide⟩, rfl⟩

/-- C6, amended: in every handler state, when `handleDiscover` has returned an
Offer for a client, a later `handleRequest` of the same client during which the
reply builder draws its transaction id, after any events in between, returns
an Acknowledge with the address of the Offer and the same subnet-mask, router,
DNS, lease-time and server-identifier options; when the reply builder returns
an error, `handleRequest` returns that error and no response. In both cases
the handler is left as it is. -/
theorem C6_request_acks_offer (h : DHCPHandler) (xid : Option Nat) (req offer : DHCPv4)
    (h1 : DHCPHandler) (hoffer : handleDiscover h xid req = (.ok offer, h1))
    (evs : List Event) (req2 : DHCPv4) (hsame : req2.ClientHWAddr = req.ClientHWAddr)
    (x : Nat) :
    (∃ ack, handleRequest (handleAll h1 evs) (some x) req2 = (.ok ack, handleAll h1 evs) ∧
      offer.MessageType = MessageTypeOffer ∧
      ack.MessageType = MessageTypeAck ∧
      ack.YourIPAddr = offer.YourIPAddr ∧
      ack.Options.Get OptionSubnetMask = offer.Options.Get OptionSubnetMask ∧
      ack.Options.Get OptionRouter = offer.Options.Get OptionRouter ∧
      ack.Options.Get OptionDomainNameServer = offer.Options.Get OptionDomainNameServer ∧
      ack.Options.Get OptionIPAddressLeaseTime = offer.Options.Get OptionIPAddressLeaseTime ∧
      ack.Options.Get OptionServerIdentifier = offer.Options.Get OptionServerIdentifier) ∧
    (∀ (xid2 : Option Nat) (e : String),
      NewReplyFromRequest xid2 req2
        [WithMessageType MessageTypeAck,
         WithServerIP (handleAll h1 evs).serverIP,
         WithYourIP offer.YourIPAddr,
         WithOption (OptSubnetMask (handleAll h1 evs).subnet.Mask).1
           (OptSubnetMask (handleAll h1 evs).subnet.Mask).2,
         WithOption (OptRouter (handleAll h1 evs).serverIP).1
           (OptRouter (handleAll h1 evs).serverIP).2,
         WithOption (OptDNS (handleAll h1 evs).serverIP).1
           (OptDNS (handleAll h1 evs).serverIP).2,
         WithOption (OptIPAddressLeaseTime leaseTime).1 (OptIPAddressLeaseTime leaseTime).2,
         WithOption (OptServerIdentifier (handleAll h1 evs).serverIP).1
           (OptServerIdentifier (handleAll h1 evs).serverIP).2]
        = .error e →
      handleRequest (handleAll h1 evs) xid2 req2 = (.error e, handleAll h1 evs)) ∧
    handleRequest (handleAll h1 evs) none req2 =
      (.error "could not get random number", handleAll h1 evs) := by
  obtain ⟨x0, hx0, hok⟩ := handleDiscover_ok_inv h xid req offer (by rw [hoffer])
  subst hx0
  obtain ⟨resp, hr, d1, d2, d3, d4, d5, d6, d7⟩ := handleDiscover_ok h x0 req hok
  rw [hoffer] at hr
  simp only [Prod.mk.injEq, Except.ok.injEq] at hr
  obtain ⟨hr1, hr2⟩ := hr
  subst hr1
  have hstored : mapGet h1.leases req2.ClientHWAddr.String =
      some (allocateIP h req.ClientHWAddr).1 := by
    rw [hr2, hsame]
    exact allocateIP_stored h _ hok
  have hhit := allocateIP_hit _ _ _ (handleAll_persist evs h1 _ _ hstored)
  have hcfg := handleAll_config evs h1
  have hs1 : h1.serverIP = h.serverIP := by rw [hr2, allocateIP_serverIP]
  have hs2 : h1.subnet = h.subnet := by rw [hr2, allocateIP_subnet]
  have hok2 : (allocateIP (handleAll h1 evs) req2.ClientHWAddr).1 ≠ [] := by
    rw [hhit]; exact hok
  have herr := handleRequest_builder_error (handleAll h1 evs) req2 hok2
  rw [hhit] at herr
  refine ⟨?_, ?_, herr⟩
  · obtain ⟨ack, ha, a1, a2, a3, a4, a5, a6, a7⟩ :=
      handleRequest_ok (handleAll h1 evs) x req2 hok2
    rw [hhit] at ha a2
    rw [hcfg.1, hs1] at a4 a5 a7
    rw [hcfg.2, hs2] at a3
    exact ⟨ack, ha, d1, a1, by rw [a2, d2], by rw [a3, d3], by rw [a4, d4], by rw [a5, d5],
      by rw [a6, d6], by rw [a7, d7]⟩
  · intro xid2 e he
    cases xid2 with
    | some y =>
      obtain ⟨r2, hr3, _⟩ := reply_fields y req2 MessageTypeAck (handleAll h1 evs).serverIP
        offer.YourIPAddr (handleAll h1 evs).subnet.Mask
      rw [hr3] at he
      cases he
    | none =>
      rw [NewReplyFromRequest_none] at he
      cases he
      exact herr

/-- C6 amended, on the tests' exchange with a Discover of B in between: the
Acknowledge of A carries the `.100` of its Offer when the builder succeeds, and
the builder's error comes back when it fails. -/
theorem C6_witness :
    (∃ offer h1, handleDiscover (NewDHCPHandler exampleServer exampleNet24) (some 1)
        (exampleRequest MessageTypeDiscover macA) = (.ok offer, h1) ∧
      offer.YourIPAddr = [192, 168, 1, 100]) ∧
    (∃ ack, (handleRequest (handleAll (handleDiscover (NewDHCPHandler exampleServer exampleNet24)
        (some 1) (exampleRequest MessageTypeDiscover macA)).2
        [⟨some 2, examplePeer, exampleRequest MessageTypeDiscover macB⟩]) (some 3)
        (exampleRequest MessageTypeRequest macA)).1 = .ok ack ∧
      ack.MessageType = MessageTypeAck ∧ ack.YourIPAddr = [192, 168, 1, 100]) ∧
    (handleRequest (handleAll (handleDiscover (NewDHCPHandler exampleServer exampleNet24)
        (some 1) (exampleRequest MessageTypeDiscover macA)).2
        [⟨some 2, examplePeer, exampleRequest MessageTypeDiscover macB⟩]) none
        (exampleRequest MessageTypeRequest macA)).1 = .error "could not get random number" :=
  ⟨⟨_, _, rfl, by decide⟩,
    (C6_request_acks_offer (NewDHCPHandler exampleServer exampleNet24) (some 1)
      (exampleRequest MessageTypeDiscover macA) _ _ rfl
      [⟨some 2, examplePeer, exampleRequest MessageTypeDiscover macB⟩]
      (exampleRequest MessageTypeRequest macA) rfl 3).1.elim
      (fun ack hack => ⟨ack, congrArg Prod.fst hack.1, hack.2.2.1, hack.2.2.2.1.trans (by decide)⟩),
    congrArg Prod.fst (C6_request_acks_offer (NewDHCPHandler exampleServer exampleNet24) (some 1)
      (exampleRequest MessageTypeDiscover macA) _ _ rfl
      [⟨some 2, examplePeer, exampleRequest MessageTypeDiscover macB⟩]
      (exampleRequest MessageTypeRequest macA) rfl 3).2.2⟩

/-- C7: when 101 clients hold leases in a state reached from a fresh handler
and a request arrives from a client without a lease, `handleDiscover` and
`handleRequest` return the error and no response, `Handle` writes nothing, the
handler is left as it was, and no later event changes it. -/
theorem C7_exhausted_pool_fails (s : IP) (n : IPNet) (macs : List HardwareAddr)
    (hfull : (allocAll (NewDHCPHandler s n) macs).leases.length = poolEnd - poolStart + 1)
    (xid : Option Nat) (peer : UDPAddr) (req : DHCPv4)
    (hnew : mapGet (allocAll (NewDHCPHandler s n) macs).leases req.ClientHWAddr.String = none) :
    handleDiscover (allocAll (NewDHCPHandler s n) macs) xid req =
      (.error "no IPs available in pool", allocAll (NewDHCPHandler s n) macs) ∧
    handleRequest (allocAll (NewDHCPHandler s n) macs) xid req =
      (.error "no IPs available in pool", allocAll (NewDHCPHandler s n) macs) ∧
    Handle (allocAll (NewDHCPHandler s n) macs) xid peer req =
      (none, allocAll (NewDHCPHandler s n) macs) ∧
    ∀ evs, handleAll (allocAll (NewDHCPHandler s n) macs) evs =
      allocAll (NewDHCPHandler s n) macs := by
  have hx := exhausted_of_length s n macs hfull
  have ha := allocateIP_full _ _ hnew hx
  have hd := handleDiscover_nil (allocAll (NewDHCPHandler s n) macs) xid req (by rw [ha])
  have hq := handleRequest_nil (allocAll (NewDHCPHandler s n) macs) xid req (by rw [ha])
  rw [ha] at hd hq
  refine ⟨hd, hq, ?_, fun evs => handleAll_frozen evs _ hx⟩
  unfold Handle
  split
  · rfl
  · simp only
    split
    · rw [hd]; rfl
    · split
      · rw [hq]; rfl
      · rfl

set_option maxRecDepth 100000 in
/-- C7 after 101 distinct clients: the Discover of one more client fails. -/
theorem C7_witness :
    ((allocAll (NewDHCPHandler exampleServer exampleNet24) (manyClients 101)).leases.length =
        poolEnd - poolStart + 1 ∧
      mapGet (allocAll (NewDHCPHandler exampleServer exampleNet24) (manyClients 101)).leases
        (exampleRequest MessageTypeDiscover macA).ClientHWAddr.String = none) ∧
    Handle (allocAll (NewDHCPHandler exampleServer exampleNet24) (manyClients 101)) (some 1)
      examplePeer (exampleRequest MessageTypeDiscover macA) =
      (none, allocAll (NewDHCPHandler exampleServer exampleNet24) (manyClients 101)) :=
  ⟨⟨by decide, by decide⟩,
    (C7_exhausted_pool_fails exampleServer exampleNet24 (manyClients 101) (by decide) (some 1)
      examplePeer (exampleRequest MessageTypeDiscover macA) (by decide)).2.2.1⟩

/-- C8: `Handle` writes nothing and leaves the handler as it is for a request
whose opcode is not BootRequest and for one whose message type is neither
Discover nor Request; whatever it writes answers a BootRequest of type Discover
with an Offer or one of type Request with an Acknowledge, and is addressed to
`255.255.255.255` port 68 whatever the peer. -/
theorem C8_handle_classifies (h : DHCPHandler) (xid : Option Nat) (peer : UDPAddr)
    (req : DHCPv4) :
    (req.OpCode ≠ OpcodeBootRequest → Handle h xid peer req = (none, h)) ∧
    (req.MessageType ≠ MessageTypeDiscover → req.MessageType ≠ MessageTypeRequest →
      Handle h xid peer req = (none, h)) ∧
    (∀ dst resp, (Handle h xid peer req).1 = some (dst, resp) →
      req.OpCode = OpcodeBootRequest ∧
      ((req.MessageType = MessageTypeDiscover ∧ resp.MessageType = MessageTypeOffer) ∨
        (req.MessageType = MessageTypeRequest ∧ resp.MessageType = MessageTypeAck)) ∧
      dst = { IP := [255, 255, 255, 255], Port := 68 }) := by
  refine ⟨?_, ?_, ?_⟩
  · intro hop
    simp [Handle, hop]
  · intro hd hr
    unfold Handle
    split
    · rfl
    · simp [hd, hr]
  · intro dst resp hs
    unfold Handle at hs
    by_cases hop : req.OpCode = OpcodeBootRequest
    · refine ⟨hop, ?_⟩
      simp only [hop, ne_eq, not_true_eq_false, ↓reduceIte] at hs
      by_cases hd : req.MessageType = MessageTypeDiscover
      · rw [if_pos hd] at hs
        obtain ⟨hres, hdst⟩ := sendResponse_some _ dst resp hs
        obtain ⟨x, hx, hok⟩ := handleDiscover_ok_inv h xid req resp hres
        subst hx
        obtain ⟨resp2, e1, e2, _⟩ := handleDiscover_ok h x req hok
        rw [e1] at hres
        simp only [Except.ok.injEq] at hres
        rw [← hres]
        exact ⟨Or.inl ⟨hd, e2⟩, hdst⟩
      · rw [if_neg hd] at hs
        by_cases hr : req.MessageType = MessageTypeRequest
        · rw [if_pos hr] at hs
          obtain ⟨hres, hdst⟩ := sendResponse_some _ dst resp hs
          obtain ⟨x, hx, hok⟩ := handleRequest_ok_inv h xid req resp hres
          subst hx
          obtain ⟨resp2, e1, e2, _⟩ := handleRequest_ok h x req hok
          rw [e1] at hres
          simp only [Except.ok.injEq] at hres
          rw [← hres]
          exact ⟨Or.inr ⟨hr, e2⟩, hdst⟩
        · rw [if_neg hr] at hs
          cases hs
    · simp [hop] at hs

/-- C8 on a Release from a client: nothing is written and the handler that
serves A and B is unchanged. -/
theorem C8_witness :
    ((exampleRequest MessageTypeRelease macA).MessageType ≠ MessageTypeDiscover ∧
      (exampleRequest MessageTypeRelease macA).MessageType ≠ MessageTypeRequest) ∧
    Handle (allocAll (NewDHCPHandler exampleServer exampleNet24) [macA, macB]) (some 1)
      examplePeer (exampleRequest MessageTypeRelease macA) =
      (none, allocAll (NewDHCPHandler exampleServer exampleNet24) [macA, macB]) :=
  ⟨⟨by decide, by decide⟩,
    (C8_handle_classifies (allocAll (NewDHCPHandler exampleServer exampleNet24) [macA, macB])
      (some 1) examplePeer (exampleRequest MessageTypeRelease macA)).2.1 (by decide)
      (by decide)⟩

/-- C9: the reply the DNS handler builds for a query with questions
`q1 .. qk` has exactly `k` answers, the `i`-th being an A record of class IN
named as `qi`, with TTL 60 and the server address, whatever the names and
record types asked; a single question gets exactly one such record. -/
theorem C9_dns_answers (serverIP : IP) (r : Msg) :
    (newDNSHandler serverIP r).Answer.length = r.Question.length ∧
    (∀ i : Nat, (newDNSHandler serverIP r).Answer[i]? = (r.Question[i]?).map (fun q : Question =>
      RR.A { Name := q.Name, Rrtype := TypeA, Class := ClassINET, Ttl := 60 } serverIP)) ∧
    (∀ q, r.Question = [q] → (newDNSHandler serverIP r).Answer =
      [RR.A { Name := q.Name, Rrtype := TypeA, Class := ClassINET, Ttl := 60 } serverIP]) := by
  rw [newDNSHandler_Answer]
  refine ⟨by simp, ?_, ?_⟩
  · intro i
    simp
  · intro q hq
    rw [hq]
    rfl

/-- C9 on the AAAA query of the tests: one A record for the server address. -/
theorem C9_witness :
    (newDNSHandler exampleServer
      { Id := 5, Question := [{ Name := "anything.test.", Qtype := TypeAAAA, Qclass := ClassINET }] }
      ).Answer =
      [RR.A { Name := "anything.test.", Rrtype := TypeA, Class := ClassINET, Ttl := 60 }
        exampleServer] :=
  (C9_dns_answers exampleServer
    { Id := 5, Question := [{ Name := "anything.test.", Qtype := TypeAAAA, Qclass := ClassINET }] }
    ).2.2 { Name := "anything.test.", Qtype := TypeAAAA, Qclass := ClassINET } rfl

/-- C10: in every state reached from a fresh handler the cursor lies in
`[100, 201]`; a call of `allocateIP` leaves it or adds exactly one, the latter
exactly when the client had no lease before the call and has one after; the
number of leases is `nextIP - 100`; the last bytes of the leased addresses are
exactly `100 .. nextIP - 1`; and a call keeps every lease entry as it is. -/
theorem C10_cursor_monotone_bounded (s : IP) (n : IPNet) (macs : List HardwareAddr)
    (mac : HardwareAddr) :
    (poolStart ≤ (allocAll (NewDHCPHandler s n) macs).nextIP ∧
      (allocAll (NewDHCPHandler s n) macs).nextIP ≤ poolEnd + 1) ∧
    ((allocateIP (allocAll (NewDHCPHandler s n) macs) mac).2.nextIP =
        (allocAll (NewDHCPHandler s n) macs).nextIP ∨
      (allocateIP (allocAll (NewDHCPHandler s n) macs) mac).2.nextIP =
        (allocAll (NewDHCPHandler s n) macs).nextIP + 1) ∧
    ((allocateIP (allocAll (NewDHCPHandler s n) macs) mac).2.nextIP =
        (allocAll (NewDHCPHandler s n) macs).nextIP + 1 ↔
      (mapGet (allocAll (NewDHCPHandler s n) macs).leases mac.String = none ∧
        mapGet (allocateIP (allocAll (NewDHCPHandler s n) macs) mac).2.leases mac.String
          ≠ none)) ∧
    (allocAll (NewDHCPHandler s n) macs).leases.length =
      (allocAll (NewDHCPHandler s n) macs).nextIP - poolStart ∧
    (∀ o, (∃ k a, mapGet (allocAll (NewDHCPHandler s n) macs).leases k = some a ∧
        a[3]? = some o) ↔
      (poolStart ≤ o ∧ o < (allocAll (NewDHCPHandler s n) macs).nextIP)) ∧
    (∀ k a, mapGet (allocAll (NewDHCPHandler s n) macs).leases k = some a →
      mapGet (allocateIP (allocAll (NewDHCPHandler s n) macs) mac).2.leases k = some a) := by
  have inv := Inv_allocAll s n macs
  have hcur := inv.cursor
  refine ⟨?_, ?_, ?_, Inv_length s n macs _ inv, ?_, ?_⟩
  · unfold poolStart poolEnd at *
    omega
  · cases hg : mapGet (allocAll (NewDHCPHandler s n) macs).leases mac.String with
    | some ip => rw [allocateIP_hit _ mac ip hg]; exact Or.inl rfl
    | none =>
      by_cases hx : (allocAll (NewDHCPHandler s n) macs).nextIP > poolEnd
      · rw [allocateIP_full _ mac hg hx]; exact Or.inl rfl
      · rw [allocateIP_new _ mac hg (by omega)]; exact Or.inr rfl
  · cases hg : mapGet (allocAll (NewDHCPHandler s n) macs).leases mac.String with
    | some ip =>
      rw [allocateIP_hit _ mac ip hg]
      simp
    | none =>
      by_cases hx : (allocAll (NewDHCPHandler s n) macs).nextIP > poolEnd
      · rw [allocateIP_full _ mac hg hx]
        simp [hg]
      · rw [allocateIP_new _ mac hg (by omega)]
        simp [mapGet]
  · intro o
    constructor
    · rintro ⟨k, a, hk, ha⟩
      obtain ⟨o2, h1, h2, h3⟩ := Inv_value_form s n macs _ inv k a hk
      rw [h3, poolAddr_last] at ha
      cases ha
      exact ⟨h1, h2⟩
    · rintro ⟨h1, h2⟩
      obtain ⟨k, hk⟩ := Inv_value_exists s n macs _ inv o h1 h2
      exact ⟨k, _, hk, poolAddr_last n o⟩
  · intro k a hk
    exact allocateIP_persist _ mac k a hk

/-- C10 after calls for A, B, A and then a call for C: the cursor is 102 with
two leases, and the call for C moves it to 103. -/
theorem C10_witness :
    (allocAll (NewDHCPHandler exampleServer exampleNet24) [macA, macB, macA]).nextIP = 102 ∧
    (allocAll (NewDHCPHandler exampleServer exampleNet24) [macA, macB, macA]).leases.length =
      (allocAll (NewDHCPHandler exampleServer exampleNet24) [macA, macB, macA]).nextIP
        - poolStart ∧
    (allocateIP (allocAll (NewDHCPHandler exampleServer exampleNet24) [macA, macB, macA])
      macC).2.nextIP = 103 :=
  ⟨by decide,
    (C10_cursor_monotone_bounded exampleServer exampleNet24 [macA, macB, macA] macC).2.2.2.1,
    by decide⟩

end Pap2t
